import Mathlib

/-!
Verification development for the thread-session orchestration engine of a
chat-facing agent bot (TypeScript sources: session.ts and its text-message
handler). The definitions below are a shallow embedding of the source:
dates are modelled as Nat millisecond timestamps, the JS runtime clock is
passed explicitly, the backend event stream is an explicit list of items
(including concurrently arriving stop requests and raised errors), and the
imported configuration and helper functions (config.ts, security.ts,
formatting.ts) are parameters collected in an Env structure.
-/

namespace Bot

/-- Token usage statistics attached to a result event (types.ts TokenUsage). -/
structure TokenUsage where
  input_tokens : Nat
  output_tokens : Nat
deriving DecidableEq, Repr

/-- State of one ThreadSession (session.ts, class ThreadSession).
The AbortController is modelled as an Option Bool: none when absent,
some b with b true once abort() has been signalled. -/
structure SessionState where
  sessionId : Option String
  chatId : Int
  threadAnchorId : Int
  title : String
  createdAt : Nat
  lastActivity : Option Nat
  queryStarted : Option Nat
  currentTool : Option String
  lastTool : Option String
  lastError : Option String
  lastErrorTime : Option Nat
  lastUsage : Option TokenUsage
  lastMessage : Option String
  abortController : Option Bool
  isQueryRunning : Bool
  stopRequested : Bool
  isProcessing : Bool
  wasInterruptedByNewMessage : Bool
deriving DecidableEq, Repr

/-- new ThreadSession(chatId, threadAnchorId, title): the constructor.
The optional title argument defaults to "Untitled" when absent or empty
(JS: title || "Untitled"). nowC is the value of new Date() at construction. -/
def newSession (chatId threadAnchorId : Int) (title : Option String) (nowC : Nat) :
    SessionState :=
  { sessionId := none
    chatId := chatId
    threadAnchorId := threadAnchorId
    title := match title with
      | some t => if t = "" then "Untitled" else t
      | none => "Untitled"
    createdAt := nowC
    lastActivity := none
    queryStarted := none
    currentTool := none
    lastTool := none
    lastError := none
    lastErrorTime := none
    lastUsage := none
    lastMessage := none
    abortController := none
    isQueryRunning := false
    stopRequested := false
    isProcessing := false
    wasInterruptedByNewMessage := false }

/-- get isActive: sessionId is non-null. -/
def SessionState.isActive (s : SessionState) : Bool :=
  s.sessionId ≠ none

/-- get isRunning: a query is streaming or the session is claimed. -/
def isRunningS (s : SessionState) : Bool :=
  s.isQueryRunning || s.isProcessing

/-- consumeInterruptFlag(): read and clear the interrupt latch; when it was
set, also clear stopRequested. -/
def consumeInterruptFlag (s : SessionState) : Bool × SessionState :=
  let was := s.wasInterruptedByNewMessage
  let s1 := { s with wasInterruptedByNewMessage := false }
  let s2 := if was then { s1 with stopRequested := false } else s1
  (was, s2)

/-- markInterrupt(). -/
def markInterrupt (s : SessionState) : SessionState :=
  { s with wasInterruptedByNewMessage := true }

/-- clearStopRequested(). -/
def clearStopRequested (s : SessionState) : SessionState :=
  { s with stopRequested := false }

/-- startProcessing(): mark the session claimed; the returned cleanup is
modelled separately by stopProcessing. -/
def startProcessing (s : SessionState) : SessionState :=
  { s with isProcessing := true }

/-- The cleanup closure returned by startProcessing. -/
def stopProcessing (s : SessionState) : SessionState :=
  { s with isProcessing := false }

/-- Result of ThreadSession.stop(): "stopped" | "pending" | false. -/
inductive StopResult where
  | stopped
  | pending
  | notRunning
deriving DecidableEq, Repr

/-- ThreadSession.stop(): abort an active query, or mark a merely claimed
session for cancellation, or report that nothing is running. -/
def SessionState.stop (s : SessionState) : StopResult × SessionState :=
  if s.isQueryRunning = true ∧ s.abortController.isSome = true then
    (.stopped, { s with stopRequested := true, abortController := some true })
  else if s.isProcessing = true then
    (.pending, { s with stopRequested := true })
  else
    (.notRunning, s)

/-- ThreadSession.kill(): clear the resumption identity and activity time. -/
def kill (s : SessionState) : SessionState :=
  { s with sessionId := none, lastActivity := none }

/-- Persisted record shape (types.ts ThreadSessionData). An ISO-8601 date
string is modelled by its Nat timestamp; last_activity uses Option so that
none models a falsy (empty or missing) field. -/
structure TSData where
  session_id : String
  chat_id : Int
  thread_anchor_id : Int
  created_at : Nat
  last_activity : Option Nat
  working_dir : String
  title : String
deriving DecidableEq, Repr

/-- ThreadSession.toData(): serialize. A null sessionId becomes the empty
string, and a null lastActivity is replaced by new Date() (the argument now). -/
def toData (s : SessionState) (wd : String) (now : Nat) : TSData :=
  { session_id := s.sessionId.getD ""
    chat_id := s.chatId
    thread_anchor_id := s.threadAnchorId
    created_at := s.createdAt
    last_activity := some (s.lastActivity.getD now)
    working_dir := wd
    title := s.title }

/-- ThreadSession.fromData(data): deserialize through the constructor; an
empty session_id becomes null; working_dir is ignored. -/
def fromData (d : TSData) : SessionState :=
  { newSession d.chat_id d.thread_anchor_id (some d.title) 0 with
    sessionId := if d.session_id = "" then none else some d.session_id
    createdAt := d.created_at
    lastActivity := d.last_activity }

/-- Lowercase a string (JS toLowerCase, restricted to the ASCII range that
the compared needles use). -/
def lowerStr (s : String) : String :=
  ⟨s.data.map Char.toLower⟩

/-- JS String.prototype.includes: substring containment. -/
def strContains (hay needle : String) : Bool :=
  hay.data.tails.any (fun t => needle.data.isPrefixOf t)

/-- JS String.prototype.slice(0, n). -/
def strTake (s : String) (n : Nat) : String :=
  ⟨s.data.take n⟩

/-- JS String.prototype.startsWith. -/
def strStartsWith (s p : String) : Bool :=
  p.data.isPrefixOf s.data

/-- session.ts catch clause: String(error).toLowerCase() contains "cancel"
or "abort". -/
def isCleanupError (e : String) : Bool :=
  strContains (lowerStr e) "cancel" || strContains (lowerStr e) "abort"

/-- Input object of a tool_use block; only the fields the translator reads. -/
structure ToolInput where
  command : Option String
  file_path : Option String
deriving DecidableEq, Repr

/-- Assistant-message content blocks from the backend stream. A text block
carries the value Date.now() returns when it is processed; a tool_use block
for the ask-user tool class carries the outcome of the external
checkPendingAskUserRequests polling (true when a choice affordance was
delivered within the three attempts). -/
inductive Block where
  | thinking (text : String)
  | toolUse (name : String) (input : ToolInput) (buttonsSent : Bool)
  | text (t : String) (now : Int)
deriving DecidableEq, Repr

/-- Backend stream events (SDKMessage): assistant messages and the result
message; every event carries a session_id field. -/
inductive SDKEvent where
  | assistant (sid : Option String) (blocks : List Block)
  | result (sid : Option String) (usage : Option TokenUsage)
deriving DecidableEq, Repr

/-- One step of the interleaved execution of the streaming loop: an event
from the backend, a concurrent stop() request landing between events, or the
stream raising an error (msg is what String(error) yields). -/
inductive StreamItem where
  | ev (e : SDKEvent)
  | stop
  | raise (msg : String)
deriving DecidableEq, Repr

/-- Status events delivered to the caller-supplied sink (StatusCallback). -/
inductive OutEvent where
  | thinking (t : String)
  | tool (t : String)
  | segmentEnd (t : String) (segId : Nat)
  | text (t : String) (segId : Nat)
  | done
deriving DecidableEq, Repr

/-- Errors the streaming loop can raise: the two safety throws from inside
the loop (new Error with the blocked command reason, new Error with the
blocked file path) and errors raised by the backend stream itself. -/
inductive SendErr where
  | safetyCmd (reason : String)
  | safetyPath (path : String)
  | streamErr (msg : String)
deriving DecidableEq, Repr

/-- String(error) for a raised loop error: a thrown Error stringifies with
an "Error: " marker in front of its message. -/
def errString : SendErr → String
  | .safetyCmd r => "Error: " ++ ("Unsafe command blocked: " ++ r)
  | .safetyPath p => "Error: " ++ ("File access blocked: " ++ p)
  | .streamErr m => m

/-- Imported configuration and helpers (config.ts, security.ts,
formatting.ts), passed as parameters of the embedding. -/
structure Env where
  throttleMs : Int
  tempPaths : List String
  checkCommandSafety : String → Bool × String
  isPathAllowed : String → Bool
  formatToolStatus : String → ToolInput → String

/-- Local mutable state of one sendMessageStreaming invocation, together
with the slice of session fields the loop reads and writes and the sink
trace accumulated so far. -/
structure LoopState where
  trace : List OutEvent
  responseParts : List String
  currentSegmentId : Nat
  currentSegmentText : String
  lastTextUpdate : Int
  queryCompleted : Bool
  askUserTriggered : Bool
  stopRequested : Bool
  sessionId : Option String
  lastUsage : Option TokenUsage
  currentTool : Option String
  lastTool : Option String
deriving DecidableEq, Repr

/-- Deliver one status event to the sink. -/
def LoopState.emit (st : LoopState) (e : OutEvent) : LoopState :=
  { st with trace := st.trace ++ [e] }

/-- Process one content block of an assistant message (session.ts loop body).
Returns the new state and, when the block threw, the raised error. -/
def processBlock (env : Env) (st : LoopState) : Block → LoopState × Option SendErr
  | .thinking t =>
    if t ≠ "" then (st.emit (.thinking t), none) else (st, none)
  | .text t now =>
    let st1 := { st with
      responseParts := st.responseParts ++ [t]
      currentSegmentText := st.currentSegmentText ++ t }
    if now - st1.lastTextUpdate > env.throttleMs ∧ st1.currentSegmentText.length > 20 then
      ({ st1.emit (.text st1.currentSegmentText st1.currentSegmentId) with
          lastTextUpdate := now }, none)
    else
      (st1, none)
  | .toolUse name input buttonsSent =>
    if name = "Bash" ∧ (env.checkCommandSafety (input.command.getD "")).1 = false then
      let reason := (env.checkCommandSafety (input.command.getD "")).2
      (st.emit (.tool ("BLOCKED: " ++ reason)), some (.safetyCmd reason))
    else
      let filePath := input.file_path.getD ""
      let isTmpRead : Bool :=
        (name = "Read" : Bool) &&
          (env.tempPaths.any (fun p => strStartsWith filePath p) ||
            strContains filePath "/.claude/")
      if (name = "Read" ∨ name = "Write" ∨ name = "Edit") ∧ filePath ≠ "" ∧
          isTmpRead = false ∧ env.isPathAllowed filePath = false then
        (st.emit (.tool ("Access denied: " ++ filePath)),
          some (.safetyPath filePath))
      else
        let st1 :=
          if st.currentSegmentText ≠ "" then
            { st.emit (.segmentEnd st.currentSegmentText st.currentSegmentId) with
              currentSegmentId := st.currentSegmentId + 1
              currentSegmentText := "" }
          else st
        let d := env.formatToolStatus name input
        let st2 := { st1 with currentTool := some d, lastTool := some d }
        let st3 := if ¬ strStartsWith name "mcp__ask-user" = true then st2.emit (.tool d) else st2
        let st4 :=
          if strStartsWith name "mcp__ask-user" = true ∧ buttonsSent = true then
            { st3 with askUserTriggered := true }
          else st3
        (st4, none)

/-- Fold processBlock across the blocks of one assistant message, stopping
at the first raised error. -/
def processBlocks (env : Env) (st : LoopState) : List Block → LoopState × Option SendErr
  | [] => (st, none)
  | b :: rest =>
    match processBlock env st b with
    | (st1, none) => processBlocks env st1 rest
    | (st1, some e) => (st1, some e)

/-- Latch the first truthy backend session identifier (an empty string is
falsy in JS and is not latched). -/
def latchSessionId (st : LoopState) (sid : Option String) : LoopState :=
  match st.sessionId, sid with
  | none, some x => if x ≠ "" then { st with sessionId := some x } else st
  | _, _ => st

/-- Process one backend event. -/
def processEvent (env : Env) (st : LoopState) : SDKEvent → LoopState × Option SendErr
  | .assistant sid blocks => processBlocks env (latchSessionId st sid) blocks
  | .result sid usage =>
    let st1 := latchSessionId st sid
    let st2 := { st1 with queryCompleted := true }
    let st3 := match usage with
      | some u => { st2 with lastUsage := some u }
      | none => st2
    (st3, none)

/-- The for-await loop of sendMessageStreaming: consume stream items until
the stream ends, a stop is observed at the top of an iteration, the
ask-user break fires, or an error is raised. -/
def runLoop (env : Env) (st : LoopState) : List StreamItem → LoopState × Option SendErr
  | [] => (st, none)
  | .stop :: rest => runLoop env { st with stopRequested := true } rest
  | .raise msg :: _ => (st, some (.streamErr msg))
  | .ev e :: rest =>
    if st.stopRequested = true then (st, none)
    else
      match processEvent env st e with
      | (st1, some err) => (st1, some err)
      | (st1, none) =>
        if st1.askUserTriggered = true then (st1, none) else runLoop env st1 rest

/-- Inputs of one sendMessageStreaming invocation: the prompt, the
interleaved stream, and the wall-clock times the two new Date() calls
return (at query start and at completion). -/
structure SendInput where
  message : String
  items : List StreamItem
  tStart : Nat
  tEnd : Nat
deriving Repr

/-- Observable outcome of one sendMessageStreaming invocation: the returned
or thrown value, the full sink trace, the session state afterwards, and the
loop state at loop exit (none when the send was cancelled before the
backend call was opened). -/
structure SendResult where
  result : Except String String
  trace : List OutEvent
  state : SessionState
  loopFinal : Option LoopState
deriving Repr

/-- Loop state at stream entry. -/
def initLoop (s : SessionState) : LoopState :=
  { trace := []
    responseParts := []
    currentSegmentId := 0
    currentSegmentText := ""
    lastTextUpdate := 0
    queryCompleted := false
    askUserTriggered := false
    stopRequested := false
    sessionId := s.sessionId
    lastUsage := s.lastUsage
    currentTool := none
    lastTool := s.lastTool }

/-- The finally clause: clear the running flag, the abort controller, the
start time and the current-tool marker. -/
def applyFinally (s : SessionState) : SessionState :=
  { s with isQueryRunning := false, abortController := none,
           queryStarted := none, currentTool := none }

/-- Write the loop-mutated session fields back into the session. -/
def mergeLoop (s : SessionState) (st : LoopState) : SessionState :=
  { s with sessionId := st.sessionId, lastUsage := st.lastUsage,
           currentTool := st.currentTool, lastTool := st.lastTool,
           stopRequested := st.stopRequested }

/-- The code after the try/catch/finally on the non-throwing paths: update
activity, clear the error record, then either return the awaiting-selection
sentinel or flush the remaining segment, emit done and return the
accumulated text (with a fallback when it is empty). -/
def sendEpilogue (s : SessionState) (st : LoopState) (inp : SendInput) : SendResult :=
  let s1 := applyFinally (mergeLoop s st)
  let s2 := { s1 with lastActivity := some inp.tEnd, lastError := none,
                      lastErrorTime := none }
  if st.askUserTriggered = true then
    { result := .ok "[Waiting for user selection]"
      trace := st.trace ++ [.done]
      state := s2
      loopFinal := some st }
  else
    let tr :=
      if st.currentSegmentText ≠ "" then
        st.trace ++ [.segmentEnd st.currentSegmentText st.currentSegmentId]
      else st.trace
    let joined := String.join st.responseParts
    { result := .ok (if joined = "" then "No response from Claude." else joined)
      trace := tr ++ [.done]
      state := s2
      loopFinal := some st }

/-- ThreadSession.sendMessageStreaming. The pre-phase records the message
and rejects with "Query cancelled" when stopRequested is already set;
otherwise the abort controller is created, the running flag set, and the
loop is driven over the stream; the catch clause swallows
cancellation-flavored errors raced against completion, an awaited user
choice or a requested stop, and records and re-raises everything else. -/
def sendMessageStreaming (env : Env) (s : SessionState) (inp : SendInput) : SendResult :=
  let s0 := { s with lastMessage := some inp.message }
  if s0.stopRequested = true then
    { result := .error "Error: Query cancelled"
      trace := []
      state := { s0 with stopRequested := false }
      loopFinal := none }
  else
    let s1 := { s0 with abortController := some false, isQueryRunning := true,
                        stopRequested := false, queryStarted := some inp.tStart,
                        currentTool := none }
    match runLoop env (initLoop s1) inp.items with
    | (st, none) => sendEpilogue s1 st inp
    | (st, some err) =>
      let es := errString err
      if isCleanupError es = true ∧
          (st.queryCompleted = true ∨ st.askUserTriggered = true ∨
            st.stopRequested = true) then
        sendEpilogue s1 st inp
      else
        let s2 := mergeLoop s1 st
        let s3 := { s2 with lastError := some (strTake es 100),
                            lastErrorTime := some inp.tEnd }
        { result := .error es
          trace := st.trace
          state := applyFinally s3
          loopFinal := some st }

/-! ## Session registry (class SessionManager)

The Map from "chatId:threadAnchorId" keys to sessions is modelled as a list
in insertion order (a JS Map iterates in insertion order; set appends new
keys at the end, delete preserves the order of the rest). The key string is
modelled by the (chatId, threadAnchorId) pair, which the colon-separated
format determines injectively. -/

/-- The registry key of a session. -/
def keyOf (s : SessionState) : Int × Int :=
  (s.chatId, s.threadAnchorId)

/-- Registry contents. -/
abbrev Registry := List SessionState

/-- this.sessions.get(key). -/
def findSession (reg : Registry) (k : Int × Int) : Option SessionState :=
  reg.find? (fun s => keyOf s = k)

/-- getSessionsForChat(chatId). -/
def sessionsForChat (reg : Registry) (chatId : Int) : List SessionState :=
  reg.filter (fun s => s.chatId = chatId)

/-- this.sessions.delete(key), keeping the remaining insertion order. -/
def removeKey (reg : Registry) (k : Int × Int) : Registry :=
  reg.filter (fun s => ¬ keyOf s = k)

/-- Map.set semantics: replace in place when the key is present, else
append at the end. -/
def setSession (reg : Registry) (s : SessionState) : Registry :=
  if reg.any (fun u => keyOf u = keyOf s) then
    reg.map (fun u => if keyOf u = keyOf s then s else u)
  else
    reg ++ [s]

/-- Head of the idle list after the stable ascending sort on
lastActivity?.getTime() || 0: the earliest element attaining the minimal
activity key. -/
def minByActivity : List SessionState → Option SessionState
  | [] => none
  | s :: rest =>
    match minByActivity rest with
    | none => some s
    | some b =>
      if b.lastActivity.getD 0 < s.lastActivity.getD 0 then some b else some s

/-- SessionManager.getOrCreateSession: return the existing session for the
key, or evict the oldest idle session of the chat when the running count
reached the ceiling, then create, register and return a new session.
maxConc is MAX_CONCURRENT_SESSIONS and nowC the construction time. -/
def getOrCreateSession (maxConc : Nat) (reg : Registry)
    (chatId threadAnchorId : Int) (title : Option String) (nowC : Nat) :
    SessionState × Registry :=
  match findSession reg (chatId, threadAnchorId) with
  | some s => (s, reg)
  | none =>
    let activeCount := ((sessionsForChat reg chatId).filter
      (fun s => isRunningS s)).length
    let reg1 :=
      if activeCount ≥ maxConc then
        match minByActivity (reg.filter
            (fun s => (s.chatId = chatId : Bool) && !(isRunningS s))) with
        | some oldest => removeKey reg (keyOf oldest)
        | none => reg
      else reg
    let s := newSession chatId threadAnchorId title nowC
    (s, reg1 ++ [s])

/-- Removal predicate of cleanupInactiveSessions: idle and inactive for
longer than the timeout, where a null lastActivity counts as time 0. -/
def shouldRemove (timeout now : Int) (s : SessionState) : Bool :=
  !(isRunningS s) && decide (now - ((s.lastActivity.getD 0 : Nat) : Int) > timeout)

/-- SessionManager.cleanupInactiveSessions: remove every idle session whose
activity age exceeds the timeout; return the surviving registry and the
count of removed sessions. -/
def cleanupInactiveSessions (timeout now : Int) (reg : Registry) : Registry × Nat :=
  (reg.filter (fun s => !(shouldRemove timeout now s)),
    (reg.filter (fun s => shouldRemove timeout now s)).length)

/-- Log lines the registry emits, by severity. -/
inductive LogMsg where
  | info (s : String)
  | warn (s : String)
  | err (s : String)
deriving DecidableEq, Repr

/-- What the persistence file yields at load time: absent, unparsable, or a
parsed versioned record list. -/
inductive LoadInput where
  | missing
  | parseError
  | parsed (version : Int) (sessions : List TSData)
deriving DecidableEq, Repr

/-- SessionManager.loadSessions: repopulate the registry from the persisted
file; a version tag other than 1 is rejected with a warning and loads
nothing; read or parse failures are logged and load nothing. -/
def loadSessions (inp : LoadInput) (reg : Registry) : Registry × List LogMsg :=
  match inp with
  | .missing => (reg, [.info "No saved sessions file found"])
  | .parseError => (reg, [.err "Failed to load sessions"])
  | .parsed v ss =>
    if v ≠ 1 then
      (reg, [.warn "Unknown sessions file version"])
    else
      (ss.foldl (fun r d => setSession r (fromData d)) reg,
        [.info "Loaded sessions from disk"])

/-! ## Interrupt/retry coordinator (text handler, function handleText)

Steps 7 through 13 of handleText: claim the session, invoke the streaming
send with up to one retry on a backend-process crash, and surface errors.
The send itself is abstracted as an oracle sendFn from the attempt index
and the session state to the result (ok response or thrown String(error))
and the session state afterwards; handleText branches only on the error
string and on the interrupt flag, which sendMessageStreaming never writes. -/

/-- User-visible replies the handler can send while processing errors. -/
inductive Reply where
  | crashRetry
  | queryStopped
  | errorMsg (s : String)
deriving DecidableEq, Repr

/-- Observable outcome of the handleText retry loop. -/
structure HandleResult where
  state : SessionState
  attempts : Nat
  killed : Bool
  replies : List Reply
  saved : Bool
deriving Repr

/-- The shared tail of the error path once no retry is possible: a
cancellation-flavored error consults and consumes the interrupt flag and
replies "Query stopped" only for an explicit stop; any other error is
echoed truncated to 200 characters. -/
def handleFinalError (e : String) (s : SessionState) : List Reply × SessionState :=
  if strContains e "abort" || strContains e "cancel" then
    let r := consumeInterruptFlag s
    (if r.1 = true then [] else [.queryStopped], r.2)
  else
    ([.errorMsg (strTake e 200)], s)

/-- handleText steps 7 through 13 with MAX_RETRIES = 1, unrolled: attempt 0,
and on an "exited with code" failure a kill, a crash notice and attempt 1. -/
def handleTextLoop (sendFn : Nat → SessionState → Except String String × SessionState)
    (s : SessionState) : HandleResult :=
  let sP := startProcessing s
  match sendFn 0 sP with
  | (.ok _, s0) =>
    { state := stopProcessing s0, attempts := 1, killed := false,
      replies := [], saved := true }
  | (.error e0, s0) =>
    if strContains e0 "exited with code" then
      let s1 := kill s0
      match sendFn 1 s1 with
      | (.ok _, s2) =>
        { state := stopProcessing s2, attempts := 2, killed := true,
          replies := [.crashRetry], saved := true }
      | (.error e1, s2) =>
        let fin := handleFinalError e1 s2
        { state := stopProcessing fin.2, attempts := 2, killed := true,
          replies := .crashRetry :: fin.1, saved := false }
    else
      let fin := handleFinalError e0 s0
      { state := stopProcessing fin.2, attempts := 1, killed := false,
        replies := fin.1, saved := false }

/-- The session state right after the pre-phase of sendMessageStreaming:
message recorded, abort controller created, running flag set, stop flag
cleared, start time recorded, current tool cleared. -/
def preState (s : SessionState) (inp : SendInput) : SessionState :=
  { s with
    lastMessage := some inp.message
    abortController := some false
    isQueryRunning := true
    stopRequested := false
    queryStarted := some inp.tStart
    currentTool := none }

/-- The segment ids carried by text and segment_end events of a trace, in
delivery order. -/
def segIds : List OutEvent → List Nat
  | [] => []
  | .segmentEnd _ i :: r => i :: segIds r
  | .text _ i :: r => i :: segIds r
  | _ :: r => segIds r

/-- The segment ids carried by segment_end events of a trace, in delivery
order. -/
def segEndIds : List OutEvent → List Nat
  | [] => []
  | .segmentEnd _ i :: r => i :: segEndIds r
  | _ :: r => segEndIds r

/-- Invariant tying a sink trace to the current segment counter: the closed
segments carry ids 0, 1, ... in order, every carried id is at most the
counter, carried ids are non-decreasing and start at 0, and every
segment_end payload is nonempty. -/
def TraceOk (tr : List OutEvent) (c : Nat) : Prop :=
  segEndIds tr = List.range c ∧
  (∀ i ∈ segIds tr, i ≤ c) ∧
  List.Chain' (· ≤ ·) (segIds tr) ∧
  (∀ x, (segIds tr).head? = some x → x = 0) ∧
  (∀ t i, OutEvent.segmentEnd t i ∈ tr → t ≠ "")

/-! ## Concrete test fixtures for the closed witnesses -/

/-- A shared concrete environment for the closed witnesses. -/
def envT : Env :=
  { throttleMs := 10
    tempPaths := ["/tmp/"]
    checkCommandSafety := fun c =>
      if strContains c "rm -rf" then (false, "dangerous command") else (true, "")
    isPathAllowed := fun p => strStartsWith p "/work/"
    formatToolStatus := fun n _ => n }

/-- A fresh concrete session. -/
def sessT : SessionState := newSession 1 2 (some "t") 0

/-- A concrete session with an active backend call. -/
def sRunT : SessionState :=
  { sessT with isQueryRunning := true, abortController := some false }

/-- A concrete session with a pending stop request. -/
def sStopT : SessionState := { sessT with stopRequested := true }

/-- A concrete send input with an empty stream. -/
def inpNil : SendInput := { message := "m", items := [], tStart := 0, tEnd := 1 }

/-- A concrete session with the interrupt latch and a stop request set. -/
def sIntT : SessionState :=
  { sessT with wasInterruptedByNewMessage := true, stopRequested := true }

/-- A concrete session with activity and a resumption id. -/
def sActT : SessionState :=
  { sessT with lastActivity := some 42, sessionId := some "abc" }

/-- A concrete running session, chat 1 anchor 10. -/
def sRun10 : SessionState := { newSession 1 10 none 0 with isQueryRunning := true }

/-- A concrete idle session, chat 1 anchor 11, last active at 5. -/
def sIdle11 : SessionState := { newSession 1 11 none 0 with lastActivity := some 5 }

/-- A concrete registry at the ceiling. -/
def regT : Registry := [sRun10, sIdle11]

/-- A concrete send input whose stream raises a non-cancellation error. -/
def inpRaise : SendInput :=
  { message := "m", items := [.raise "network failure"], tStart := 0, tEnd := 9 }

/-- C8 counterexample: on a crash-flavored failure the handler does retry,
but not silently: a crash notice reply is sent to the chat before the
retry, so the retry is user visible. -/
def crashFn : Nat → SessionState → Except String String × SessionState :=
  fun n s =>
    if n = 0 then (Except.error "Claude Code process exited with code 1", s)
    else (Except.ok "hi", s)

/-- A concrete send input whose stream carries a Bash tool invocation that
fails the safety check of envT. -/
def inpBash : SendInput :=
  { message := "m"
    items := [.ev (.assistant none
      [.toolUse "Bash" { command := some "rm -rf /", file_path := none } false])]
    tStart := 0
    tEnd := 2 }

/-- A concrete send input whose stream carries two spaced text blocks in the
same segment, so that the throttle emits two text events with one id. -/
def inpTwoTexts : SendInput :=
  { message := "m"
    items := [.ev (.assistant none
      [.text "aaaaaaaaaaaaaaaaaaaaaaaaa" 100, .text "b" 200])]
    tStart := 0
    tEnd := 300 }

/-! ## Helper lemmas -/

/-- minByActivity of a nonempty list is some element. -/
theorem minByActivity_eq_none (l : List SessionState)
    (h : minByActivity l = none) : l = [] := by
  cases l with
  | nil => rfl
  | cons s rest =>
    simp only [minByActivity] at h
    cases hr : minByActivity rest with
    | none => rw [hr] at h; simp at h
    | some b =>
      rw [hr] at h
      by_cases hlt : b.lastActivity.getD 0 < s.lastActivity.getD 0 <;>
        simp [hlt] at h

/-- minByActivity returns an element of the list. -/
theorem minByActivity_mem : ∀ (l : List SessionState) (v : SessionState),
    minByActivity l = some v → v ∈ l := by
  intro l
  induction l with
  | nil => intro v h; simp [minByActivity] at h
  | cons s rest ih =>
    intro v h
    simp only [minByActivity] at h
    cases hr : minByActivity rest with
    | none =>
      rw [hr] at h
      simp at h
      subst h
      exact List.mem_cons_self _ _
    | some b =>
      rw [hr] at h
      by_cases hlt : b.lastActivity.getD 0 < s.lastActivity.getD 0
      · simp [hlt] at h
        subst h
        exact List.mem_cons_of_mem s (ih _ hr)
      · simp [hlt] at h
        subst h
        exact List.mem_cons_self _ _

/-- minByActivity returns an element with minimal activity key (a null
lastActivity counting as 0). -/
theorem minByActivity_le : ∀ (l : List SessionState) (v : SessionState),
    minByActivity l = some v →
    ∀ u ∈ l, v.lastActivity.getD 0 ≤ u.lastActivity.getD 0 := by
  intro l
  induction l with
  | nil => intro v h; simp [minByActivity] at h
  | cons s rest ih =>
    intro v h u hu
    simp only [minByActivity] at h
    cases hr : minByActivity rest with
    | none =>
      rw [hr] at h
      simp at h
      subst h
      have hrest := minByActivity_eq_none rest hr
      subst hrest
      rcases List.mem_cons.mp hu with h1 | h2
      · subst h1; exact le_refl _
      · simp at h2
    | some b =>
      rw [hr] at h
      rcases List.mem_cons.mp hu with h1 | h2
      · subst h1
        by_cases hlt : b.lastActivity.getD 0 < u.lastActivity.getD 0
        · simp [hlt] at h
          subst h
          exact le_of_lt hlt
        · simp [hlt] at h
          subst h
          exact le_refl _
      · by_cases hlt : b.lastActivity.getD 0 < s.lastActivity.getD 0
        · simp [hlt] at h
          subst h
          exact ih _ hr u h2
        · simp [hlt] at h
          subst h
          exact le_trans (not_lt.mp hlt) (ih _ hr u h2)








/-! ## Claims -/

/-- C1: requestStop returns Stopped and signals the cancellation handle when
a backend call is active; otherwise, when the session is merely claimed, it
sets stopRequested and returns Pending; otherwise it returns NotRunning.
A send that begins while stopRequested is set fails with the cancellation
error before the backend call is opened (empty trace, no loop run, the
abort controller untouched). The hypothesis records the session invariant
that an abort controller exists exactly while a query runs. -/
theorem claim1_requestStop (s s2 : SessionState) (env : Env) (inp : SendInput)
    (hctl : s.isQueryRunning = true → s.abortController.isSome = true) :
    (s.isQueryRunning = true →
      (SessionState.stop s).1 = StopResult.stopped ∧
      (SessionState.stop s).2.abortController = some true) ∧
    (s.isQueryRunning = false → s.isProcessing = true →
      (SessionState.stop s).1 = StopResult.pending ∧
      (SessionState.stop s).2.stopRequested = true) ∧
    (s.isQueryRunning = false → s.isProcessing = false →
      (SessionState.stop s).1 = StopResult.notRunning ∧
      (SessionState.stop s).2 = s) ∧
    (s2.stopRequested = true →
      (sendMessageStreaming env s2 inp).result = Except.error "Error: Query cancelled" ∧
      (sendMessageStreaming env s2 inp).trace = [] ∧
      (sendMessageStreaming env s2 inp).loopFinal = none ∧
      (sendMessageStreaming env s2 inp).state.abortController = s2.abortController) := by
  refine ⟨?_, ?_, ?_, ?_⟩
  · intro hrun
    have hsome := hctl hrun
    simp [SessionState.stop, hrun, hsome]
  · intro hrun hproc
    simp [SessionState.stop, hrun, hproc]
  · intro hrun hproc
    simp [SessionState.stop, hrun, hproc]
  · intro hstop
    simp [sendMessageStreaming, hstop]

/-- Witness for C1 at concrete states. -/
theorem claim1_witness :
    (SessionState.stop sRunT).1 = StopResult.stopped ∧
    (SessionState.stop sRunT).2.abortController = some true ∧
    (sendMessageStreaming envT sStopT inpNil).result =
      Except.error "Error: Query cancelled" := by
  have h := claim1_requestStop sRunT sStopT envT inpNil (by decide)
  exact ⟨(h.1 rfl).1, (h.1 rfl).2, (h.2.2.2 rfl).1⟩

/-- C3: consumeInterruptFlag returns the latched interrupt flag and clears
it, a second call returns false, and whenever it returns true it also
clears stopRequested. -/
theorem claim3_consumeInterruptFlag (s : SessionState) :
    (consumeInterruptFlag s).1 = s.wasInterruptedByNewMessage ∧
    (consumeInterruptFlag (consumeInterruptFlag s).2).1 = false ∧
    ((consumeInterruptFlag s).1 = true →
      (consumeInterruptFlag s).2.stopRequested = false) := by
  cases hw : s.wasInterruptedByNewMessage <;>
    simp [consumeInterruptFlag, hw]

/-- Witness for C3 at a concrete state. -/
theorem claim3_witness :
    (consumeInterruptFlag sIntT).1 = true ∧
    (consumeInterruptFlag sIntT).2.stopRequested = false := by
  have h := claim3_consumeInterruptFlag sIntT
  exact ⟨h.1, h.2.2 h.1⟩

/-- C9: loading a persisted file whose version tag is not 1 loads zero
sessions, logs a warning and leaves the registry unchanged. -/
theorem claim9_unknown_version (v : Int) (ss : List TSData) (reg : Registry)
    (hv : v ≠ 1) :
    loadSessions (.parsed v ss) reg =
      (reg, [LogMsg.warn "Unknown sessions file version"]) := by
  simp [loadSessions, hv]

/-- Witness for C9 at version 2 with an empty registry. -/
theorem claim9_witness :
    loadSessions (.parsed 2 [toData sessT "/w" 5]) [] =
      ([], [LogMsg.warn "Unknown sessions file version"]) :=
  claim9_unknown_version 2 [toData sessT "/w" 5] [] (by decide)

/-- C5 counterexample: a session whose lastActivity is null (for example any
freshly created or killed session) does not round-trip: serialization
replaces the null by the save-time clock value, so deserialization yields a
non-null lastActivity. -/
theorem claim5_counterexample :
    (fromData (toData sessT "/w" 1000)).lastActivity ≠ sessT.lastActivity := by
  decide

/-- C5 (amended): provided lastActivityAt is non-null, the title nonempty
and the resumption id not the empty string, serialize followed by
deserialize reproduces resumptionId, conversationId, threadAnchorId, title,
createdAt and lastActivityAt; and every deserialized session starts Idle
(neither running nor processing, with no pending stop). -/
theorem claim5_roundtrip (s : SessionState) (wd : String) (now : Nat)
    (hact : s.lastActivity ≠ none) (htitle : s.title ≠ "")
    (hsid : s.sessionId ≠ some "") :
    (fromData (toData s wd now)).sessionId = s.sessionId ∧
    (fromData (toData s wd now)).chatId = s.chatId ∧
    (fromData (toData s wd now)).threadAnchorId = s.threadAnchorId ∧
    (fromData (toData s wd now)).title = s.title ∧
    (fromData (toData s wd now)).createdAt = s.createdAt ∧
    (fromData (toData s wd now)).lastActivity = s.lastActivity ∧
    (∀ d : TSData, (fromData d).isQueryRunning = false ∧
      (fromData d).isProcessing = false ∧ (fromData d).stopRequested = false) := by
  refine ⟨?_, rfl, rfl, ?_, rfl, ?_, ?_⟩
  · cases hs : s.sessionId with
    | none => simp [fromData, toData, hs]
    | some x =>
      have hx : x ≠ "" := by
        intro hx; exact hsid (by rw [hs, hx])
      simp [fromData, toData, hs, hx]
  · simp [fromData, toData, newSession, htitle]
  · cases ha : s.lastActivity with
    | none => exact absurd ha hact
    | some a => simp [fromData, toData, ha]
  · intro d
    exact ⟨rfl, rfl, rfl⟩

/-- Witness for C5 at a concrete session. -/
theorem claim5_witness :
    (fromData (toData sActT "/w" 1000)).lastActivity = some 42 ∧
    (fromData (toData sActT "/w" 1000)).sessionId = some "abc" := by
  have h := claim5_roundtrip sActT "/w" 1000 (by decide) (by decide) (by decide)
  exact ⟨h.2.2.2.2.2.1, h.1⟩

/-- C10 counterexample: with a configured SESSION_TIMEOUT_MS larger than
the wall-clock time (timeout 2000000000000 ms, clock at 1760000000000 ms),
an idle session with null lastActivity is kept: it is not removed for every
timeout value, because the null is treated as epoch time 0 and removal
requires the clock to exceed the timeout. -/
theorem claim10_counterexample :
    isRunningS sessT = false ∧ sessT.lastActivity = none ∧
    (cleanupInactiveSessions 2000000000000 1760000000000 [sessT]).1 =
      [sessT] := by
  decide

/-- C10 (amended): a null lastActivity is treated as activity time 0: an
idle session with null lastActivity is removed by cleanupInactive whenever
the clock exceeds the timeout, regardless of its other fields; and among
eviction candidates the chosen oldest session has activity key 0 whenever
any candidate has a null lastActivity. -/
theorem claim10_null_activity (timeout now : Int) (reg : Registry)
    (s : SessionState) (_hmem : s ∈ reg) (hidle : isRunningS s = false)
    (hnull : s.lastActivity = none) (hnow : timeout < now) :
    s ∉ (cleanupInactiveSessions timeout now reg).1 ∧
    (∀ (l : List SessionState) (v : SessionState), minByActivity l = some v →
      (∃ u ∈ l, u.lastActivity = none) → v.lastActivity.getD 0 = 0) := by
  constructor
  · intro hin
    have h := (List.mem_filter.mp hin).2
    rw [shouldRemove, hidle, hnull] at h
    simp at h
    omega
  · intro l v hv hu
    obtain ⟨u, hul, hunull⟩ := hu
    have hle := minByActivity_le l v hv u hul
    rw [hunull] at hle
    simpa using hle

/-- Witness for C10 at a concrete registry. -/
theorem claim10_witness :
    sessT ∉ (cleanupInactiveSessions 300000 1760000000000 [sessT]).1 := by
  have h := claim10_null_activity 300000 1760000000000 [sessT] sessT
    (by decide) (by decide) (by decide) (by decide)
  exact h.1

/-- C4: getOrCreate returns the existing session when the key is present;
otherwise, when the running count for the conversation reached the ceiling,
it removes the idle session of that conversation with the oldest
lastActivityAt before registering the new session; eviction never removes a
running session; and when no session of the conversation is idle (or the
ceiling is not reached) the new session is still created with nothing
removed. The hypothesis is the Map invariant that registry keys are unique. -/
theorem claim4_getOrCreateSession (maxConc : Nat) (reg : Registry)
    (chatId threadAnchorId : Int) (title : Option String) (nowC : Nat)
    (hkeys : reg.Pairwise (fun a b => keyOf a ≠ keyOf b)) :
    (∀ s, findSession reg (chatId, threadAnchorId) = some s →
      getOrCreateSession maxConc reg chatId threadAnchorId title nowC = (s, reg)) ∧
    (findSession reg (chatId, threadAnchorId) = none →
      (getOrCreateSession maxConc reg chatId threadAnchorId title nowC).1 =
        newSession chatId threadAnchorId title nowC ∧
      (∀ v, ((sessionsForChat reg chatId).filter (fun s => isRunningS s)).length ≥ maxConc →
        minByActivity (reg.filter
          (fun s => (s.chatId = chatId : Bool) && !(isRunningS s))) = some v →
        (getOrCreateSession maxConc reg chatId threadAnchorId title nowC).2 =
          removeKey reg (keyOf v) ++ [newSession chatId threadAnchorId title nowC] ∧
        isRunningS v = false ∧ v.chatId = chatId ∧
        (∀ u ∈ reg, u.chatId = chatId → isRunningS u = false →
          v.lastActivity.getD 0 ≤ u.lastActivity.getD 0)) ∧
      ((((sessionsForChat reg chatId).filter (fun s => isRunningS s)).length < maxConc ∨
          reg.filter (fun s => (s.chatId = chatId : Bool) && !(isRunningS s)) = []) →
        (getOrCreateSession maxConc reg chatId threadAnchorId title nowC).2 =
          reg ++ [newSession chatId threadAnchorId title nowC])) ∧
    (∀ u ∈ reg, isRunningS u = true →
      u ∈ (getOrCreateSession maxConc reg chatId threadAnchorId title nowC).2) := by
  refine ⟨?_, ?_, ?_⟩
  · intro s hs
    simp [getOrCreateSession, hs]
  · intro hnone
    refine ⟨?_, ?_, ?_⟩
    · simp [getOrCreateSession, hnone]
    · intro v hge hmin
      have hvmem := minByActivity_mem _ _ hmin
      have hvf := List.mem_filter.mp hvmem
      have hvp := hvf.2
      simp only [Bool.and_eq_true, decide_eq_true_eq, Bool.not_eq_true',
        isRunningS] at hvp
      refine ⟨?_, ?_, hvp.1, ?_⟩
      · simp [getOrCreateSession, hnone, hge, hmin]
      · simp [isRunningS, hvp.2]
      · intro u hu huc hui
        refine minByActivity_le _ _ hmin u (List.mem_filter.mpr ⟨hu, ?_⟩)
        simp [huc, hui]
    · intro hcase
      rcases hcase with hlt | hempty
      · simp [getOrCreateSession, hnone, Nat.not_le.mpr hlt]
      · have hmn : minByActivity (reg.filter
            (fun s => (s.chatId = chatId : Bool) && !(isRunningS s))) = none := by
          rw [hempty]; rfl
        by_cases hge : ((sessionsForChat reg chatId).filter
            (fun s => isRunningS s)).length ≥ maxConc
        · simp [getOrCreateSession, hnone, hge, hmn]
        · simp [getOrCreateSession, hnone, hge]
  · intro u hu hrun
    cases hfind : findSession reg (chatId, threadAnchorId) with
    | some s =>
      simp [getOrCreateSession, hfind]
      exact hu
    | none =>
      by_cases hge : ((sessionsForChat reg chatId).filter
          (fun s => isRunningS s)).length ≥ maxConc
      · cases hmin : minByActivity (reg.filter
            (fun s => (s.chatId = chatId : Bool) && !(isRunningS s))) with
        | none =>
          simp [getOrCreateSession, hfind, hge, hmin]
          exact Or.inl hu
        | some v =>
          simp only [getOrCreateSession, hfind, hge, if_pos, hmin]
          apply List.mem_append.mpr
          left
          have hvf := List.mem_filter.mp (minByActivity_mem _ _ hmin)
          have hne : u ≠ v := by
            intro he
            have hvp := hvf.2
            rw [← he] at hvp
            simp only [Bool.and_eq_true, Bool.not_eq_true'] at hvp
            rw [hrun] at hvp
            exact Bool.true_eq_false.mp hvp.2
          have hsym : Symmetric (fun a b : SessionState => keyOf a ≠ keyOf b) :=
            fun _ _ h h2 => h h2.symm
          have hkey := hkeys.forall hsym hu hvf.1 hne
          apply List.mem_filter.mpr
          exact ⟨hu, by simpa using hkey⟩
      · simp [getOrCreateSession, hfind, hge]
        exact Or.inl hu




/-- Witness for C4: with a ceiling of 1 and one running plus one idle
session, creating a third evicts the idle one and keeps the running one. -/
theorem claim4_witness :
    (getOrCreateSession 1 regT 1 12 none 99).2 =
      removeKey regT (keyOf sIdle11) ++ [newSession 1 12 none 99] ∧
    isRunningS sIdle11 = false ∧
    sRun10 ∈ (getOrCreateSession 1 regT 1 12 none 99).2 := by
  have h := claim4_getOrCreateSession 1 regT 1 12 none 99 (by decide)
  have h2 := (h.2.1 (by decide)).2.1 sIdle11 (by decide) (by decide)
  exact ⟨h2.1, h2.2.1, h.2.2 sRun10 (by decide) (by decide)⟩

/-- Both exits of the epilogue return a value rather than raising. -/
theorem sendEpilogue_isOk (s : SessionState) (st : LoopState) (inp : SendInput) :
    ∃ r, (sendEpilogue s st inp).result = Except.ok r := by
  unfold sendEpilogue
  by_cases h : st.askUserTriggered = true <;> simp [h]

/-- C6: when the loop raises an error, the send swallows it (returns a
value) exactly when the error string is cancellation/abort flavored and the
send had logically completed, was awaiting a user choice, or a stop had
been requested; in every other case the error is recorded on the session
(lastError truncated to 100 characters, lastErrorTime) and re-raised. -/
theorem claim6_error_handling (env : Env) (s : SessionState) (inp : SendInput)
    (st : LoopState) (e : SendErr)
    (hpre : s.stopRequested = false)
    (hrun : runLoop env (initLoop s) inp.items = (st, some e)) :
    ((∃ r, (sendMessageStreaming env s inp).result = Except.ok r) ↔
      (isCleanupError (errString e) = true ∧
        (st.queryCompleted = true ∨ st.askUserTriggered = true ∨
          st.stopRequested = true))) ∧
    (¬ (isCleanupError (errString e) = true ∧
        (st.queryCompleted = true ∨ st.askUserTriggered = true ∨
          st.stopRequested = true)) →
      (sendMessageStreaming env s inp).result = Except.error (errString e) ∧
      (sendMessageStreaming env s inp).state.lastError =
        some (strTake (errString e) 100) ∧
      (sendMessageStreaming env s inp).state.lastErrorTime = some inp.tEnd) := by
  have hshape : sendMessageStreaming env s inp =
      (if isCleanupError (errString e) = true ∧
          (st.queryCompleted = true ∨ st.askUserTriggered = true ∨
            st.stopRequested = true) then
        sendEpilogue { s with
          lastMessage := some inp.message
          abortController := some false
          isQueryRunning := true
          stopRequested := false
          queryStarted := some inp.tStart
          currentTool := none } st inp
      else
        { result := Except.error (errString e)
          trace := st.trace
          state := applyFinally { mergeLoop { s with
              lastMessage := some inp.message
              abortController := some false
              isQueryRunning := true
              stopRequested := false
              queryStarted := some inp.tStart
              currentTool := none } st with
            lastError := some (strTake (errString e) 100)
            lastErrorTime := some inp.tEnd }
          loopFinal := some st }) := by
    simp only [initLoop] at hrun
    simp only [sendMessageStreaming, initLoop, hpre, Bool.false_eq_true,
      if_false]
    rw [hrun]
  by_cases hsw : isCleanupError (errString e) = true ∧
      (st.queryCompleted = true ∨ st.askUserTriggered = true ∨
        st.stopRequested = true)
  · rw [hshape, if_pos hsw]
    exact ⟨⟨fun _ => hsw, fun _ => sendEpilogue_isOk _ _ _⟩, fun h => absurd hsw h⟩
  · rw [hshape, if_neg hsw]
    refine ⟨⟨fun h => ?_, fun h => absurd h hsw⟩, fun _ => ⟨rfl, rfl, rfl⟩⟩
    obtain ⟨r, hr⟩ := h
    exact absurd hr (by simp)


set_option maxRecDepth 8192 in
/-- Witness for C6: a raised error that is not cancellation flavored is
recorded and re-raised. -/
theorem claim6_witness :
    (sendMessageStreaming envT sessT inpRaise).result =
      Except.error "network failure" ∧
    (sendMessageStreaming envT sessT inpRaise).state.lastError =
      some "network failure" ∧
    (sendMessageStreaming envT sessT inpRaise).state.lastErrorTime = some 9 := by
  have h := claim6_error_handling envT sessT inpRaise (initLoop sessT)
    (.streamErr "network failure") (by decide) (by rfl)
  have h2 := h.2 (by decide)
  exact ⟨h2.1, h2.2.1, h2.2.2⟩


/-- C8 counterexample: the retry path emits a user-visible crash notice
(replies nonempty), contradicting a silent retry. -/
theorem claim8_counterexample :
    (handleTextLoop crashFn sessT).attempts = 2 ∧
    (handleTextLoop crashFn sessT).killed = true ∧
    (handleTextLoop crashFn sessT).replies = [Reply.crashRetry] ∧
    [Reply.crashRetry] ≠ ([] : List Reply) := by
  refine ⟨rfl, rfl, rfl, by decide⟩

/-- C8 (amended): when the first send fails with an error containing
"exited with code", the caller kills the session (clearing its resumption
identity) and retries the same message exactly once, replying with a crash
notice first (the retry is not silent); a failure of the retry, or any
non-crash error, ends processing without further retries, surfaced as an
error reply unless the error is cancellation flavored. -/
theorem claim8_retry
    (sendFn : Nat → SessionState → Except String String × SessionState)
    (s t0 : SessionState) (e0 : String)
    (h0 : sendFn 0 (startProcessing s) = (Except.error e0, t0)) :
    (handleTextLoop sendFn s).attempts ≤ 2 ∧
    (strContains e0 "exited with code" = true →
      (handleTextLoop sendFn s).killed = true ∧
      (handleTextLoop sendFn s).attempts = 2 ∧
      (handleTextLoop sendFn s).replies.head? = some Reply.crashRetry ∧
      (∀ r1 t1, sendFn 1 (kill t0) = (Except.ok r1, t1) →
        (handleTextLoop sendFn s).replies = [Reply.crashRetry]) ∧
      (∀ e1 t1, sendFn 1 (kill t0) = (Except.error e1, t1) →
        (handleTextLoop sendFn s).replies =
          Reply.crashRetry :: (handleFinalError e1 t1).1)) ∧
    (strContains e0 "exited with code" = false →
      (handleTextLoop sendFn s).attempts = 1 ∧
      (handleTextLoop sendFn s).killed = false ∧
      (handleTextLoop sendFn s).replies = (handleFinalError e0 t0).1 ∧
      (strContains e0 "abort" = false → strContains e0 "cancel" = false →
        (handleTextLoop sendFn s).replies = [Reply.errorMsg (strTake e0 200)])) := by
  refine ⟨?_, ?_, ?_⟩
  · simp only [handleTextLoop, h0]
    by_cases hc : strContains e0 "exited with code" = true
    · simp only [hc, if_true]
      cases h1 : sendFn 1 (kill t0) with
      | mk r1 t1 => cases r1 <;> simp
    · rw [if_neg (by simp [hc])]
      simp
  · intro hc
    simp only [handleTextLoop, h0, hc, if_true]
    cases h1 : sendFn 1 (kill t0) with
    | mk r1 t1x =>
      cases r1 with
      | ok v =>
        exact ⟨rfl, rfl, rfl, fun r t _ => rfl,
          fun e t he => absurd he (by simp)⟩
      | error e1 =>
        refine ⟨rfl, rfl, rfl, fun r t hr => absurd hr (by simp),
          fun e t he => ?_⟩
        injection he with ha hb
        injection ha with hc2
        subst hc2
        subst hb
        rfl
  · intro hc
    simp only [handleTextLoop, h0]
    rw [if_neg (by simp [hc])]
    refine ⟨rfl, rfl, rfl, fun ha hcn => ?_⟩
    simp [handleFinalError, ha, hcn]

/-- Witness for C8: crash, kill, retry succeeding. -/
theorem claim8_witness :
    (handleTextLoop crashFn sessT).killed = true ∧
    (handleTextLoop crashFn sessT).attempts = 2 ∧
    (handleTextLoop crashFn sessT).replies.head? = some Reply.crashRetry := by
  have h := claim8_retry crashFn sessT (startProcessing sessT)
    "Claude Code process exited with code 1" rfl
  have h2 := h.2.1 (by decide)
  exact ⟨h2.1, h2.2.1, h2.2.2.1⟩

/-! ## Trace algebra for the segment-id invariant -/

/-- segIds distributes over append. -/
theorem segIds_append : ∀ (l1 l2 : List OutEvent),
    segIds (l1 ++ l2) = segIds l1 ++ segIds l2 := by
  intro l1 l2
  induction l1 with
  | nil => rfl
  | cons e t ih => cases e <;> simp [segIds, ih]

/-- segEndIds distributes over append. -/
theorem segEndIds_append : ∀ (l1 l2 : List OutEvent),
    segEndIds (l1 ++ l2) = segEndIds l1 ++ segEndIds l2 := by
  intro l1 l2
  induction l1 with
  | nil => rfl
  | cons e t ih => cases e <;> simp [segEndIds, ih]

/-- A trace with no carried ids has no segment_end ids. -/
theorem segEndIds_nil_of_segIds_nil : ∀ l : List OutEvent,
    segIds l = [] → segEndIds l = [] := by
  intro l
  induction l with
  | nil => intro _; rfl
  | cons e t ih =>
    cases e <;> intro h
    · exact ih h
    · exact ih h
    · simp [segIds] at h
    · simp [segIds] at h
    · exact ih h

/-- An element of getLast? is an element of the list. -/
theorem mem_of_mem_getLast? {α : Type} {l : List α} {x : α}
    (h : x ∈ l.getLast?) : x ∈ l := by
  obtain ⟨hne, hx⟩ := List.mem_getLast?_eq_getLast h
  rw [hx]
  exact List.getLast_mem hne

/-- The empty trace at counter 0. -/
theorem traceOk_nil : TraceOk [] 0 := by
  refine ⟨rfl, ?_, ?_, ?_, ?_⟩ <;> simp [segIds, segEndIds]

/-- Appending an event that carries no segment id preserves the invariant. -/
theorem traceOk_append_neutral (tr : List OutEvent) (c : Nat) (h : TraceOk tr c)
    (e : OutEvent) (hseg : segIds [e] = []) (hend : segEndIds [e] = [])
    (hnse : ∀ t i, e ≠ OutEvent.segmentEnd t i) :
    TraceOk (tr ++ [e]) c := by
  obtain ⟨h1, h2, h3, h4, h5⟩ := h
  refine ⟨?_, ?_, ?_, ?_, ?_⟩
  · rw [segEndIds_append, hend, List.append_nil, h1]
  · intro i hi
    rw [segIds_append, hseg, List.append_nil] at hi
    exact h2 i hi
  · rw [segIds_append, hseg, List.append_nil]
    exact h3
  · intro x hx
    rw [segIds_append, hseg, List.append_nil] at hx
    exact h4 x hx
  · intro t i hti
    rcases List.mem_append.mp hti with hl | hr
    · exact h5 t i hl
    · simp at hr
      exact absurd hr.symm (hnse t i)

/-- Appending a text event carrying the current counter preserves the
invariant. -/
theorem traceOk_append_text (tr : List OutEvent) (c : Nat) (h : TraceOk tr c)
    (txt : String) : TraceOk (tr ++ [OutEvent.text txt c]) c := by
  obtain ⟨h1, h2, h3, h4, h5⟩ := h
  refine ⟨?_, ?_, ?_, ?_, ?_⟩
  · rw [segEndIds_append]
    simpa [segEndIds] using h1
  · intro i hi
    rw [segIds_append] at hi
    rcases List.mem_append.mp hi with hl | hr
    · exact h2 i hl
    · simp [segIds] at hr
      omega
  · rw [segIds_append]
    refine List.Chain'.append h3 (by simp [segIds]) ?_
    intro x hx y hy
    have hxm := mem_of_mem_getLast? hx
    have hy2 : c = y := by simpa [segIds] using hy
    exact hy2 ▸ h2 x hxm
  · intro x hx
    rw [segIds_append] at hx
    cases hsi : segIds tr with
    | nil =>
      rw [hsi] at hx
      simp [segIds] at hx
      have hse := segEndIds_nil_of_segIds_nil tr hsi
      rw [hse] at h1
      have hc0 : c = 0 := by simpa using (List.range_eq_nil.mp h1.symm)
      omega
    | cons a t =>
      rw [hsi] at hx
      simp at hx
      have ha0 : a = 0 := h4 a (by rw [hsi]; rfl)
      omega
  · intro t i hti
    rcases List.mem_append.mp hti with hl | hr
    · exact h5 t i hl
    · simp at hr

/-- Appending a segment_end event with nonempty payload at the current
counter preserves the invariant for the incremented counter. -/
theorem traceOk_append_segEnd (tr : List OutEvent) (c : Nat) (h : TraceOk tr c)
    (txt : String) (hne : txt ≠ "") :
    TraceOk (tr ++ [OutEvent.segmentEnd txt c]) (c + 1) := by
  obtain ⟨h1, h2, h3, h4, h5⟩ := h
  refine ⟨?_, ?_, ?_, ?_, ?_⟩
  · rw [segEndIds_append, h1]
    simp [segEndIds, List.range_succ]
  · intro i hi
    rw [segIds_append] at hi
    rcases List.mem_append.mp hi with hl | hr
    · exact le_trans (h2 i hl) (Nat.le_succ c)
    · simp [segIds] at hr
      omega
  · rw [segIds_append]
    refine List.Chain'.append h3 (by simp [segIds]) ?_
    intro x hx y hy
    have hxm := mem_of_mem_getLast? hx
    have hy2 : c = y := by simpa [segIds] using hy
    exact hy2 ▸ h2 x hxm
  · intro x hx
    rw [segIds_append] at hx
    cases hsi : segIds tr with
    | nil =>
      rw [hsi] at hx
      simp [segIds] at hx
      have hse := segEndIds_nil_of_segIds_nil tr hsi
      rw [hse] at h1
      have hc0 : c = 0 := by simpa using (List.range_eq_nil.mp h1.symm)
      omega
    | cons a t =>
      rw [hsi] at hx
      simp at hx
      have ha0 : a = 0 := h4 a (by rw [hsi]; rfl)
      omega
  · intro t i hti
    rcases List.mem_append.mp hti with hl | hr
    · exact h5 t i hl
    · simp at hr
      rw [hr.1]
      exact hne

/-- Emitting an id-free event preserves the loop-state invariant. -/
theorem traceOk_emit (st : LoopState) (h : TraceOk st.trace st.currentSegmentId)
    (e : OutEvent) (hseg : segIds [e] = []) (hend : segEndIds [e] = [])
    (hnse : ∀ t i, e ≠ OutEvent.segmentEnd t i) :
    TraceOk (st.emit e).trace (st.emit e).currentSegmentId :=
  traceOk_append_neutral _ _ h e hseg hend hnse

/-- Processing one block preserves the segment-id invariant, whether or not
the block throws. -/
theorem processBlock_traceOk (env : Env) (st : LoopState) (b : Block)
    (h : TraceOk st.trace st.currentSegmentId) :
    TraceOk (processBlock env st b).1.trace
      (processBlock env st b).1.currentSegmentId := by
  cases b with
  | thinking t =>
    simp only [processBlock]
    split
    · exact traceOk_emit st h _ rfl rfl (by intro x i; simp)
    · exact h
  | text t now =>
    simp only [processBlock]
    split
    · exact traceOk_append_text _ _ h _
    · exact h
  | toolUse name input buttons =>
    simp only [processBlock]
    split
    · exact traceOk_emit st h _ rfl rfl (by intro x i; simp)
    · split
      · exact traceOk_emit st h _ rfl rfl (by intro x i; simp)
      · split
        all_goals split
        all_goals split
        all_goals first
          | exact traceOk_append_neutral _ _
              (traceOk_append_segEnd _ _ h _ (by assumption)) _ rfl rfl
              (by intro x i; simp)
          | exact traceOk_append_segEnd _ _ h _ (by assumption)
          | exact traceOk_append_neutral _ _ h _ rfl rfl (by intro x i; simp)
          | exact h

/-- Processing a block list preserves the segment-id invariant. -/
theorem processBlocks_traceOk : ∀ (bs : List Block) (env : Env) (st : LoopState),
    TraceOk st.trace st.currentSegmentId →
    TraceOk (processBlocks env st bs).1.trace
      (processBlocks env st bs).1.currentSegmentId := by
  intro bs
  induction bs with
  | nil => intro env st h; exact h
  | cons b rest ih =>
    intro env st h
    simp only [processBlocks]
    cases hpb : processBlock env st b with
    | mk stb eob =>
      have hb := processBlock_traceOk env st b h
      rw [hpb] at hb
      cases eob with
      | none => exact ih env stb hb
      | some e => exact hb

/-- Latching the session id changes neither trace nor counter. -/
theorem latchSessionId_trace (st : LoopState) (sid : Option String) :
    (latchSessionId st sid).trace = st.trace ∧
    (latchSessionId st sid).currentSegmentId = st.currentSegmentId := by
  unfold latchSessionId
  cases hs : st.sessionId <;> cases sid <;> simp
  split <;> simp

/-- Processing one backend event preserves the segment-id invariant. -/
theorem processEvent_traceOk (env : Env) (st : LoopState) (e : SDKEvent)
    (h : TraceOk st.trace st.currentSegmentId) :
    TraceOk (processEvent env st e).1.trace
      (processEvent env st e).1.currentSegmentId := by
  cases e with
  | assistant sid blocks =>
    have hl := latchSessionId_trace st sid
    have h2 : TraceOk (latchSessionId st sid).trace
        (latchSessionId st sid).currentSegmentId := by
      rw [hl.1, hl.2]; exact h
    exact processBlocks_traceOk blocks env _ h2
  | result sid usage =>
    have hl := latchSessionId_trace st sid
    cases usage with
    | some u =>
      simp only [processEvent]
      exact (by rw [hl.1, hl.2]; exact h : TraceOk (latchSessionId st sid).trace
        (latchSessionId st sid).currentSegmentId)
    | none =>
      simp only [processEvent]
      exact (by rw [hl.1, hl.2]; exact h : TraceOk (latchSessionId st sid).trace
        (latchSessionId st sid).currentSegmentId)

/-- The streaming loop preserves the segment-id invariant. -/
theorem runLoop_traceOk : ∀ (items : List StreamItem) (env : Env) (st : LoopState),
    TraceOk st.trace st.currentSegmentId →
    TraceOk (runLoop env st items).1.trace
      (runLoop env st items).1.currentSegmentId := by
  intro items
  induction items with
  | nil => intro env st h; exact h
  | cons it rest ih =>
    intro env st h
    cases it with
    | stop => exact ih env _ h
    | raise msg => exact h
    | ev e =>
      by_cases hs : st.stopRequested = true
      · have hr : runLoop env st (.ev e :: rest) = (st, none) := by
          simp [runLoop, hs]
        rw [hr]
        exact h
      · cases hpe : processEvent env st e with
        | mk ste eoe =>
          have he := processEvent_traceOk env st e h
          rw [hpe] at he
          cases eoe with
          | some err =>
            have hr : runLoop env st (.ev e :: rest) = (ste, some err) := by
              simp [runLoop, hs, hpe]
            rw [hr]
            exact he
          | none =>
            by_cases ha : ste.askUserTriggered = true
            · have hr : runLoop env st (.ev e :: rest) = (ste, none) := by
                simp [runLoop, hs, hpe, ha]
              rw [hr]
              exact he
            · have hr : runLoop env st (.ev e :: rest) = runLoop env ste rest := by
                simp [runLoop, hs, hpe, ha]
              rw [hr]
              exact ih env ste he

/-- Characterization of sendMessageStreaming when the loop completes
without raising. -/
theorem send_eq_of_run_none (env : Env) (s : SessionState) (inp : SendInput)
    (st : LoopState)
    (hpre : s.stopRequested = false)
    (hrun : runLoop env (initLoop s) inp.items = (st, none)) :
    sendMessageStreaming env s inp = sendEpilogue (preState s inp) st inp := by
  simp only [initLoop] at hrun
  simp only [sendMessageStreaming, initLoop, preState, hpre,
    Bool.false_eq_true, if_false]
  rw [hrun]

/-- Characterization of sendMessageStreaming when the loop raises. -/
theorem send_eq_of_run_some (env : Env) (s : SessionState) (inp : SendInput)
    (st : LoopState) (err : SendErr)
    (hpre : s.stopRequested = false)
    (hrun : runLoop env (initLoop s) inp.items = (st, some err)) :
    sendMessageStreaming env s inp =
      (if isCleanupError (errString err) = true ∧
          (st.queryCompleted = true ∨ st.askUserTriggered = true ∨
            st.stopRequested = true) then
        sendEpilogue (preState s inp) st inp
      else
        { result := Except.error (errString err)
          trace := st.trace
          state := applyFinally { mergeLoop (preState s inp) st with
            lastError := some (strTake (errString err) 100)
            lastErrorTime := some inp.tEnd }
          loopFinal := some st }) := by
  simp only [initLoop] at hrun
  simp only [sendMessageStreaming, initLoop, preState, hpre,
    Bool.false_eq_true, if_false]
  rw [hrun]

/-- The epilogue trace keeps the segment-id invariant of the loop trace. -/
theorem sendEpilogue_traceOk (s : SessionState) (st : LoopState)
    (inp : SendInput) (h : TraceOk st.trace st.currentSegmentId) :
    ∃ c, TraceOk (sendEpilogue s st inp).trace c := by
  unfold sendEpilogue
  by_cases ha : st.askUserTriggered = true
  · rw [if_pos ha]
    exact ⟨st.currentSegmentId,
      traceOk_append_neutral _ _ h .done rfl rfl (by intro x i; simp)⟩
  · rw [if_neg ha]
    by_cases hb : st.currentSegmentText ≠ ""
    · rw [if_pos hb]
      exact ⟨st.currentSegmentId + 1,
        traceOk_append_neutral _ _ (traceOk_append_segEnd _ _ h _ hb) .done
          rfl rfl (by intro x i; simp)⟩
    · rw [if_neg hb]
      exact ⟨st.currentSegmentId,
        traceOk_append_neutral _ _ h .done rfl rfl (by intro x i; simp)⟩

/-- C2 counterexample: with a throttle of 10ms, two text blocks of the same
segment arriving 100ms apart both exceed the length floor, so the sink
receives two text events and then the final segment_end all carrying
segment id 0: the carried ids are not strictly increasing. -/
theorem claim2_counterexample :
    segIds (sendMessageStreaming envT sessT inpTwoTexts).trace = [0, 0, 0] ∧
    ¬ List.Chain' (· < ·)
      (segIds (sendMessageStreaming envT sessT inpTwoTexts).trace) := by
  have he : segIds (sendMessageStreaming envT sessT inpTwoTexts).trace =
      [0, 0, 0] := by decide
  constructor
  · exact he
  · rw [he]
    intro hch
    rw [List.chain'_cons] at hch
    exact absurd hch.1 (lt_irrefl 0)

/-- C2 (amended): in every invocation of the streaming send, the segment
ids carried by text and segment_end events are non-decreasing and start at
0 (they are not strictly increasing, since throttled text events within one
segment repeat its id); the segment_end events carry ids 0, 1, 2, ... in
order, one per closed segment, and only for nonempty buffered segments; and
on a successful completion that is not awaiting a user choice, a remaining
nonempty buffer is flushed as a final segment_end. -/
theorem claim2_segment_ids (env : Env) (s : SessionState) (inp : SendInput) :
    List.Chain' (· ≤ ·) (segIds (sendMessageStreaming env s inp).trace) ∧
    (∀ x, (segIds (sendMessageStreaming env s inp).trace).head? = some x →
      x = 0) ∧
    segEndIds (sendMessageStreaming env s inp).trace =
      List.range (segEndIds (sendMessageStreaming env s inp).trace).length ∧
    (∀ t i, OutEvent.segmentEnd t i ∈ (sendMessageStreaming env s inp).trace →
      t ≠ "") ∧
    (∀ lf, (sendMessageStreaming env s inp).loopFinal = some lf →
      (∃ r, (sendMessageStreaming env s inp).result = Except.ok r) →
      lf.askUserTriggered = false → lf.currentSegmentText ≠ "" →
      OutEvent.segmentEnd lf.currentSegmentText lf.currentSegmentId ∈
        (sendMessageStreaming env s inp).trace) := by
  have main : (∃ c, TraceOk (sendMessageStreaming env s inp).trace c) ∧
      (∀ lf, (sendMessageStreaming env s inp).loopFinal = some lf →
        (∃ r, (sendMessageStreaming env s inp).result = Except.ok r) →
        lf.askUserTriggered = false → lf.currentSegmentText ≠ "" →
        OutEvent.segmentEnd lf.currentSegmentText lf.currentSegmentId ∈
          (sendMessageStreaming env s inp).trace) := by
    by_cases hpre : s.stopRequested = true
    · have hr : sendMessageStreaming env s inp =
          { result := Except.error "Error: Query cancelled"
            trace := []
            state := { s with
              lastMessage := some inp.message
              stopRequested := false }
            loopFinal := none } := by
        simp [sendMessageStreaming, hpre]
      rw [hr]
      exact ⟨⟨0, traceOk_nil⟩, by intro lf hlf; simp at hlf⟩
    · have hpre2 : s.stopRequested = false := by
        cases hsr : s.stopRequested
        · rfl
        · exact absurd hsr hpre
      cases hrun : runLoop env (initLoop s) inp.items with
      | mk st eo =>
        have hok : TraceOk st.trace st.currentSegmentId := by
          have := runLoop_traceOk inp.items env (initLoop s)
            (by exact traceOk_nil)
          rw [hrun] at this
          exact this
        cases eo with
        | none =>
          rw [send_eq_of_run_none env s inp st hpre2 hrun]
          constructor
          · exact sendEpilogue_traceOk _ st inp hok
          · intro lf hlf hres hask hbuf
            have hlf2 : lf = st := by
              unfold sendEpilogue at hlf
              by_cases ha : st.askUserTriggered = true <;>
                simp [ha] at hlf <;> exact hlf.symm
            subst hlf2
            unfold sendEpilogue
            rw [if_neg (by rw [hask]; simp), if_pos hbuf]
            exact List.mem_append.mpr (Or.inl (List.mem_append.mpr
              (Or.inr (List.mem_singleton.mpr rfl))))
        | some err =>
          rw [send_eq_of_run_some env s inp st err hpre2 hrun]
          by_cases hsw : isCleanupError (errString err) = true ∧
              (st.queryCompleted = true ∨ st.askUserTriggered = true ∨
                st.stopRequested = true)
          · rw [if_pos hsw]
            constructor
            · exact sendEpilogue_traceOk _ st inp hok
            · intro lf hlf hres hask hbuf
              have hlf2 : lf = st := by
                unfold sendEpilogue at hlf
                by_cases ha : st.askUserTriggered = true <;>
                  simp [ha] at hlf <;> exact hlf.symm
              subst hlf2
              unfold sendEpilogue
              rw [if_neg (by rw [hask]; simp), if_pos hbuf]
              exact List.mem_append.mpr (Or.inl (List.mem_append.mpr
                (Or.inr (List.mem_singleton.mpr rfl))))
          · rw [if_neg hsw]
            refine ⟨⟨st.currentSegmentId, hok⟩, ?_⟩
            intro lf hlf hres hask hbuf
            obtain ⟨r, hr⟩ := hres
            exact absurd hr (by simp)
  obtain ⟨⟨c, h1, h2, h3, h4, h5⟩, hflush⟩ := main
  refine ⟨h3, h4, ?_, h5, hflush⟩
  rw [h1]
  simp

/-- Witness for C2 at a concrete send. -/
theorem claim2_witness :
    List.Chain' (· ≤ ·)
      (segIds (sendMessageStreaming envT sessT inpTwoTexts).trace) ∧
    segEndIds (sendMessageStreaming envT sessT inpTwoTexts).trace =
      List.range
        (segEndIds (sendMessageStreaming envT sessT inpTwoTexts).trace).length := by
  have h := claim2_segment_ids envT sessT inpTwoTexts
  exact ⟨h.1, h.2.2.1⟩

/-! ## The safety-gate abort (claim C7) -/

/-- A command-safety throw leaves the trace ending in the blocked notice:
block level. -/
theorem processBlock_safetyCmd_trace (env : Env) (st : LoopState) (b : Block)
    (st1 : LoopState) (r : String)
    (h : processBlock env st b = (st1, some (.safetyCmd r))) :
    st1.trace = st.trace ++ [OutEvent.tool ("BLOCKED: " ++ r)] := by
  cases b with
  | thinking t =>
    simp only [processBlock] at h
    split at h <;> simp at h
  | text t now =>
    simp only [processBlock] at h
    split at h <;> simp at h
  | toolUse name input buttons =>
    simp only [processBlock] at h
    split at h
    · have h2 := h
      injection h2 with ha hb
      injection hb with hc
      injection hc with hd
      subst hd
      rw [← ha]
      rfl
    · split at h
      · injection h with ha hb
        injection hb with hc
        exact absurd hc (by simp)
      · split at h <;> split at h <;>
          (injection h with ha hb; exact absurd hb (by simp))

/-- A command-safety throw leaves the trace ending in the blocked notice:
block-list level. -/
theorem processBlocks_safetyCmd_trace : ∀ (bs : List Block) (env : Env)
    (st st1 : LoopState) (r : String),
    processBlocks env st bs = (st1, some (.safetyCmd r)) →
    ∃ t, st1.trace = t ++ [OutEvent.tool ("BLOCKED: " ++ r)] := by
  intro bs
  induction bs with
  | nil =>
    intro env st st1 r h
    simp [processBlocks] at h
  | cons b rest ih =>
    intro env st st1 r h
    simp only [processBlocks] at h
    cases hpb : processBlock env st b with
    | mk stb eob =>
      rw [hpb] at h
      cases eob with
      | none => exact ih env stb st1 r h
      | some e =>
        have h2 : (stb, some e) =
            (st1, (some (SendErr.safetyCmd r) : Option SendErr)) := h
        injection h2 with ha hb
        injection hb with hc
        refine ⟨st.trace, ?_⟩
        rw [← ha]
        exact processBlock_safetyCmd_trace env st b stb r (by rw [hpb, hc])

/-- A command-safety throw leaves the trace ending in the blocked notice:
event level. -/
theorem processEvent_safetyCmd_trace (env : Env) (st st1 : LoopState)
    (e : SDKEvent) (r : String)
    (h : processEvent env st e = (st1, some (.safetyCmd r))) :
    ∃ t, st1.trace = t ++ [OutEvent.tool ("BLOCKED: " ++ r)] := by
  cases e with
  | assistant sid blocks => exact processBlocks_safetyCmd_trace blocks env _ st1 r h
  | result sid usage =>
    simp only [processEvent] at h
    cases usage with
    | some u => simp at h
    | none => simp at h

/-- A command-safety throw leaves the trace ending in the blocked notice:
loop level. -/
theorem runLoop_safetyCmd_trace : ∀ (items : List StreamItem) (env : Env)
    (st st1 : LoopState) (r : String),
    runLoop env st items = (st1, some (.safetyCmd r)) →
    ∃ t, st1.trace = t ++ [OutEvent.tool ("BLOCKED: " ++ r)] := by
  intro items
  induction items with
  | nil =>
    intro env st st1 r h
    simp [runLoop] at h
  | cons it rest ih =>
    intro env st st1 r h
    cases it with
    | stop => exact ih env _ st1 r h
    | raise msg =>
      simp only [runLoop] at h
      injection h with ha hb
      injection hb with hc
      exact absurd hc (by simp)
    | ev e =>
      simp only [runLoop] at h
      by_cases hs : st.stopRequested = true
      · rw [if_pos hs] at h
        injection h with ha hb
        simp at hb
      · rw [if_neg hs] at h
        cases hpe : processEvent env st e with
        | mk ste eoe =>
          rw [hpe] at h
          cases eoe with
          | some err =>
            have h2 : (ste, some err) =
                (st1, (some (SendErr.safetyCmd r) : Option SendErr)) := h
            injection h2 with ha hb
            injection hb with hc
            obtain ⟨t, ht⟩ :=
              processEvent_safetyCmd_trace env st ste e r (by rw [hpe, hc])
            exact ⟨t, by rw [← ha]; exact ht⟩
          | none =>
            have h2 : (if ste.askUserTriggered = true then (ste, none)
                else runLoop env ste rest) =
                (st1, (some (SendErr.safetyCmd r) : Option SendErr)) := h
            by_cases ha : ste.askUserTriggered = true
            · rw [if_pos ha] at h2
              injection h2 with hx hy
              simp at hy
            · rw [if_neg ha] at h2
              exact ih env ste st1 r h2

/-- C7: a Bash tool invocation whose command string fails the safety check
emits exactly one sink event, the blocked notice, and immediately raises
(so no accepted tool event for that invocation is ever delivered); and when
the loop raises that error, the send delivers the blocked notice as the
last sink event and fails with the unsafe-command error (the hypothesis
that the reason string is not itself cancellation flavored rules out the
swallow race). -/
theorem claim7_safety_violation (env : Env) (s : SessionState)
    (inp : SendInput) (st : LoopState) (cmd reason : String)
    (input : ToolInput) (btn : Bool)
    (hcmd : input.command.getD "" = cmd)
    (hsafe : env.checkCommandSafety cmd = (false, reason))
    (hpre : s.stopRequested = false)
    (hloop : runLoop env (initLoop s) inp.items =
      (st, some (.safetyCmd reason)))
    (hnc : isCleanupError (errString (SendErr.safetyCmd reason)) = false) :
    (∀ st0 : LoopState, processBlock env st0 (.toolUse "Bash" input btn) =
      (st0.emit (.tool ("BLOCKED: " ++ reason)), some (.safetyCmd reason))) ∧
    (sendMessageStreaming env s inp).result =
      Except.error (errString (SendErr.safetyCmd reason)) ∧
    (∃ t, (sendMessageStreaming env s inp).trace =
      t ++ [OutEvent.tool ("BLOCKED: " ++ reason)]) := by
  have hshape := send_eq_of_run_some env s inp st (.safetyCmd reason) hpre hloop
  rw [if_neg (by rw [hnc]; simp)] at hshape
  refine ⟨?_, ?_, ?_⟩
  · intro st0
    simp [processBlock, hcmd, hsafe]
  · rw [hshape]
  · rw [hshape]
    exact runLoop_safetyCmd_trace inp.items env (initLoop s) st reason hloop

set_option maxRecDepth 8192 in
/-- Witness for C7 at a concrete blocked Bash invocation. -/
theorem claim7_witness :
    (sendMessageStreaming envT sessT inpBash).result =
      Except.error (errString (SendErr.safetyCmd "dangerous command")) ∧
    (∃ t, (sendMessageStreaming envT sessT inpBash).trace =
      t ++ [OutEvent.tool ("BLOCKED: " ++ "dangerous command")]) := by
  have h := claim7_safety_violation envT sessT inpBash
    ((initLoop sessT).emit (.tool ("BLOCKED: " ++ "dangerous command")))
    "rm -rf /" "dangerous command"
    { command := some "rm -rf /", file_path := none } false
    rfl (by decide) rfl (by decide) (by decide)
  exact ⟨h.2.1, h.2.2⟩

end Bot
